import Mathlib

/-!
Verification of the keeper turn-taking eligibility engine and its
persistence gateway (registry store, upkeep store, eligibility
calculator).  The ORM implementation itself is not part of the visible
sources (only its test suite is), so the operations below are modelled
from the specification, keeping the operation names and the record
fields that the test suite (`core/services/keeper/orm_test.go`)
exercises.  Machine integers (`int64` block heights, upkeep ids) are
modelled as `Int`; non-negative identifiers and indices as `Nat`.
-/

/-- Modelled from the spec (§3, §6): a `KeeperRegistry` row.  `JobID` is
the owning job association used by `BatchDeleteUpkeepsForJob` and
`SetLastRunInfoForUpkeepOnJob`; `KeeperList` is the registry's
keeper-set snapshot (address at position `i` has keeper index `i`),
used to resolve a keeper address to its index. -/
structure Registry where
  ID : Nat
  ContractAddress : Nat
  FromAddress : Nat
  KeeperIndex : Nat
  NumKeepers : Nat
  BlockCountPerTurn : Int
  JobID : Nat
  KeeperList : List Nat
  deriving Repr, DecidableEq

/-- Modelled from the spec (§3, §6): an `UpkeepRegistration` row, unique
on `(RegistryID, UpkeepID)`.  `LastKeeperIndex = none` means the upkeep
was never performed. -/
structure UpkeepRegistration where
  RegistryID : Nat
  UpkeepID : Int
  ExecuteGas : Nat
  CheckData : List Nat
  PositioningConstant : Nat
  LastRunBlockHeight : Int
  LastKeeperIndex : Option Nat
  deriving Repr, DecidableEq

/-- Modelled from the spec (§6): the durable state consumed and produced
by the persistence gateway: the registry table and the upkeep table. -/
structure KeeperStore where
  registries : List Registry
  upkeeps : List UpkeepRegistration
  deriving Repr, DecidableEq

/-- Modelled from the spec (§7): the error taxonomy surfaced by the
gateway operations. -/
inductive KeeperError where
  | validationError
  | notFoundError
  deriving Repr, DecidableEq

/-- Key predicate for the unique `(RegistryID, UpkeepID)` pair. -/
def keyMatch (rid : Nat) (uid : Int) (u : UpkeepRegistration) : Bool :=
  decide (u.RegistryID = rid ∧ u.UpkeepID = uid)

/-- Look up the (first) upkeep row with the given key. -/
def getUpkeep (s : KeeperStore) (rid : Nat) (uid : Int) : Option UpkeepRegistration :=
  s.upkeeps.find? (keyMatch rid uid)

/-- Database uniqueness constraint on `(registry_id, upkeep_id)`:
at most one row per key. -/
def upkeepKeysUnique (s : KeeperStore) : Prop :=
  ∀ rid uid, (s.upkeeps.filter (keyMatch rid uid)).length ≤ 1

/-- Look up a registry row by its contract address. -/
def findRegistryByContract (s : KeeperStore) (addr : Nat) : Option Registry :=
  s.registries.find? (fun r => decide (r.ContractAddress = addr))

/-- Look up the registry row owned by the given job. -/
def findRegistryByJob (s : KeeperStore) (jobID : Nat) : Option Registry :=
  s.registries.find? (fun r => decide (r.JobID = jobID))

/-- Modelled from the spec (§4.2): resolve a keeper address to its index
via the owning registry's keeper-set snapshot. -/
def resolveKeeperIndex (r : Registry) (addr : Nat) : Option Nat :=
  r.KeeperList.findIdx? (fun a => decide (a = addr))

/-- Modelled from the spec (§4.1): `Registries()` returns all registries. -/
def Registries (s : KeeperStore) : List Registry :=
  s.registries

/-- Modelled from the spec (§4.1): lookup by contract address, failing
with `NotFoundError` when absent. -/
def RegistryByContractAddress (s : KeeperStore) (addr : Nat) : Except KeeperError Registry :=
  match findRegistryByContract s addr with
  | none => Except.error KeeperError.notFoundError
  | some r => Except.ok r

/-- Modelled from the spec (§4.1): create/update a registry, upserting
by `ContractAddress`; fails with `ValidationError` before any write if
`NumKeepers ≤ 0` or `BlockCountPerTurn ≤ 0`. -/
def UpsertRegistry (s : KeeperStore) (r : Registry) : Except KeeperError KeeperStore :=
  if r.NumKeepers ≤ 0 ∨ r.BlockCountPerTurn ≤ 0 then
    Except.error KeeperError.validationError
  else if s.registries.any (fun x => decide (x.ContractAddress = r.ContractAddress)) then
    let upd := s.registries.map (fun x => if x.ContractAddress = r.ContractAddress then r else x)
    Except.ok { s with registries := upd }
  else
    Except.ok { s with registries := s.registries ++ [r] }

/-- Modelled from the spec (§4.2): `upsert(upkeep)` inserts when the
`(RegistryID, UpkeepID)` pair is absent; otherwise updates all fields
except `LastRunBlockHeight` and `LastKeeperIndex`, which are preserved
from the existing row. -/
def UpsertUpkeep (s : KeeperStore) (u : UpkeepRegistration) : KeeperStore :=
  if s.upkeeps.any (keyMatch u.RegistryID u.UpkeepID) then
    let upd := s.upkeeps.map (fun old =>
      if keyMatch u.RegistryID u.UpkeepID old then
        { u with LastRunBlockHeight := old.LastRunBlockHeight,
                 LastKeeperIndex := old.LastKeeperIndex }
      else old)
    { s with upkeeps := upd }
  else
    { s with upkeeps := s.upkeeps ++ [u] }

/-- Modelled from the spec (§4.2): `batchDelete(jobID, upkeepIDs)`
deletes all upkeeps under the registry associated with `jobID` whose
`UpkeepID` is in the given set, returning the count removed. -/
def BatchDeleteUpkeepsForJob (s : KeeperStore) (jobID : Nat) (ids : List Int) :
    Except KeeperError (Nat × KeeperStore) :=
  match findRegistryByJob s jobID with
  | none => Except.error KeeperError.notFoundError
  | some r =>
    let keep := s.upkeeps.filter (fun u => ! decide (u.RegistryID = r.ID ∧ u.UpkeepID ∈ ids))
    Except.ok (s.upkeeps.length - keep.length, { s with upkeeps := keep })

/-- Single-row conditional update used by `SetLastRunInfoForUpkeepOnJob`:
update run bookkeeping only when the reported height is strictly
greater than the stored one. -/
def applyRun (k : Nat) (h : Int) (rid : Nat) (uid : Int) (u : UpkeepRegistration) :
    UpkeepRegistration :=
  if u.RegistryID = rid ∧ u.UpkeepID = uid ∧ u.LastRunBlockHeight < h then
    { u with LastRunBlockHeight := h, LastKeeperIndex := some k }
  else u

/-- Modelled from the spec (§4.2): `setLastRunInfo` resolves the keeper
address to an index via the owning registry's keeper-set snapshot, then
updates the row only if the height strictly advances; otherwise the row
is left untouched and the call still reports success. -/
def SetLastRunInfoForUpkeepOnJob (s : KeeperStore) (jobID : Nat) (uid : Int) (h : Int)
    (addr : Nat) : Except KeeperError KeeperStore :=
  match findRegistryByJob s jobID with
  | none => Except.error KeeperError.notFoundError
  | some r =>
    match resolveKeeperIndex r addr with
    | none => Except.error KeeperError.notFoundError
    | some k => Except.ok { s with upkeeps := s.upkeeps.map (applyRun k h r.ID uid) }

/-- Run a sequence of `SetLastRunInfoForUpkeepOnJob` calls, one per
reported height. -/
def runSetLastRunSeq (jobID : Nat) (uid : Int) (addr : Nat) :
    KeeperStore → List Int → Except KeeperError KeeperStore
  | s, [] => Except.ok s
  | s, h :: t =>
    match SetLastRunInfoForUpkeepOnJob s jobID uid h addr with
    | Except.error e => Except.error e
    | Except.ok s' => runSetLastRunSeq jobID uid addr s' t

/-- Modelled from the spec (§4.3 step 1): the turn index at a block
height, `currentBlockHeight / BlockCountPerTurn` by integer division. -/
def turnOf (r : Registry) (height : Int) : Nat :=
  (height / r.BlockCountPerTurn).toNat

/-- Modelled from the spec (§4.3 step 1, §9): the spec leaves the exact
turn-assignment hash unspecified; any stable mix of turn, upkeep id and
seed conforms.  This is one such mixing function. -/
def turnHash (turn : Nat) (uid : Int) (seed : Nat) : Nat :=
  (turn + 1) * 2654435761 + uid.toNat * 40503 + seed * 97

/-- Modelled from the spec (§4.3 step 1): the pseudo-random keeper index
assigned to an upkeep for the current turn. -/
def assignedIndex (r : Registry) (height : Int) (seed : Nat) (uid : Int) : Nat :=
  turnHash (turnOf r height) uid seed % r.NumKeepers

/-- Modelled from the spec (§4.3 step 4): the paired buddy index,
`KeeperIndex XOR (NumKeepers / 2)` (meaningful when `NumKeepers` is
even). -/
def buddyIndex (r : Registry) : Nat :=
  r.KeeperIndex ^^^ (r.NumKeepers / 2)

/-- Modelled from the spec (§4.3 steps 2-5): a candidate is eligible
when its last performer is this node's buddy (even keeper count), or
when the turn assignment matches this node and the self-skip grace
window does not apply.  A null `LastKeeperIndex` satisfies neither
exclusion, leaving eligibility to the turn assignment alone. -/
def isEligible (r : Registry) (height grace : Int) (seed : Nat) (u : UpkeepRegistration) : Bool :=
  decide (
    (r.NumKeepers % 2 = 0 ∧ u.LastKeeperIndex = some (buddyIndex r)) ∨
    (assignedIndex r height seed u.UpkeepID = r.KeeperIndex ∧
      ¬(u.LastKeeperIndex = some r.KeeperIndex ∧ height - u.LastRunBlockHeight < grace)))

/-- Registry-scoping predicate: the candidate belongs to the registry. -/
def registryFilter (rid : Nat) (u : UpkeepRegistration) : Bool :=
  decide (u.RegistryID = rid)

/-- Modelled from the spec (§4.3 step 6): a deterministic seed-driven
permutation of the eligible candidates (the spec fixes no particular
shuffle, only that it is a pure function of the seed). -/
def shuffleList {α : Type} (seed : Nat) (l : List α) : List α :=
  l.rotate (seed % (l.length + 1))

/-- Modelled from the spec (§4.3): the eligibility calculator, scoped to
the registry identified by the contract address: filter the registry's
upkeeps by the eligibility rule, then shuffle with the seed. -/
def NewEligibleUpkeepsForRegistry (s : KeeperStore) (addr : Nat) (height grace : Int)
    (seed : Nat) : Except KeeperError (List UpkeepRegistration) :=
  match findRegistryByContract s addr with
  | none => Except.error KeeperError.notFoundError
  | some r =>
    Except.ok (shuffleList seed
      ((s.upkeeps.filter (registryFilter r.ID)).filter (isEligible r height grace seed)))

/-- Mark every upkeep as last performed by keeper index 0 (the buddy of
index 1 in a two-keeper registry), as the buddy-coverage test does. -/
def markBuddyRan (s : KeeperStore) : KeeperStore :=
  { s with upkeeps := s.upkeeps.map (fun u => { u with LastKeeperIndex := some 0 }) }

/-- Concrete upkeep row used in the concrete test scenarios. -/
def mkDemoUpkeep (rid : Nat) (i : Nat) (lastRun : Int) (lastKeeper : Option Nat) :
    UpkeepRegistration :=
  { RegistryID := rid, UpkeepID := (i : Int), ExecuteGas := 10000, CheckData := [171, 193, 35],
    PositioningConstant := 1, LastRunBlockHeight := lastRun, LastKeeperIndex := lastKeeper }

/-- Concrete registry row used in the concrete test scenarios. -/
def demoRegistry (kIdx n : Nat) : Registry :=
  { ID := 1, ContractAddress := 11, FromAddress := 21, KeeperIndex := kIdx, NumKeepers := n,
    BlockCountPerTurn := 20, JobID := 5, KeeperList := [21, 22] }

/-- Concrete store with one registry and 100 upkeeps sharing the given
run bookkeeping, as in the grace-period and first-turn tests. -/
def demoStore (kIdx n : Nat) (lastRun : Int) (lastKeeper : Option Nat) : KeeperStore :=
  { registries := [demoRegistry kIdx n],
    upkeeps := (List.range 100).map (fun i => mkDemoUpkeep 1 i lastRun lastKeeper) }


/-- Small concrete store with one single-keeper registry and a single
never-run upkeep, used to instantiate the persistence-gateway theorems. -/
def w1Store : KeeperStore :=
  { registries := [demoRegistry 0 1], upkeeps := [mkDemoUpkeep 1 0 0 none] }

lemma NewEligible_eq (s : KeeperStore) (addr : Nat) (r : Registry) (height grace : Int)
    (seed : Nat) (hr : findRegistryByContract s addr = some r) :
    NewEligibleUpkeepsForRegistry s addr height grace seed = Except.ok (shuffleList seed
      ((s.upkeeps.filter (registryFilter r.ID)).filter (isEligible r height grace seed))) := by
  unfold NewEligibleUpkeepsForRegistry
  rw [hr]

lemma mem_shuffleList {α : Type} {a : α} {seed : Nat} {l : List α} :
    a ∈ shuffleList seed l ↔ a ∈ l := by
  unfold shuffleList; exact List.mem_rotate

lemma length_shuffleList {α : Type} (seed : Nat) (l : List α) :
    (shuffleList seed l).length = l.length := by
  unfold shuffleList; exact List.length_rotate l _

lemma shuffleList_perm {α : Type} (seed : Nat) (l : List α) :
    List.Perm (shuffleList seed l) l := by
  unfold shuffleList; exact List.rotate_perm l _

lemma shuffleList_nil {α : Type} (seed : Nat) : shuffleList seed ([] : List α) = [] := by
  unfold shuffleList
  simp [List.rotate]

lemma length_filter_not_add {α : Type} (p : α → Bool) (l : List α) :
    (l.filter p).length + (l.filter (fun a => ! p a)).length = l.length := by
  induction l with
  | nil => rfl
  | cons a t ih =>
    by_cases h : p a = true <;>
      simp [List.filter_cons, h, ← ih] <;> omega

lemma length_le_one_mem_eq {α : Type} {l : List α} (h : l.length ≤ 1) {a b : α}
    (ha : a ∈ l) (hb : b ∈ l) : a = b := by
  cases l with
  | nil => cases ha
  | cons x t =>
    cases t with
    | nil =>
      rw [List.mem_singleton] at ha hb
      rw [ha, hb]
    | cons y t' =>
      simp [List.length_cons] at h

lemma keysUnique_nodup :
    ∀ (l : List UpkeepRegistration),
      (∀ rid uid, (l.filter (keyMatch rid uid)).length ≤ 1) → l.Nodup := by
  intro l
  induction l with
  | nil => intro _; exact List.nodup_nil
  | cons a t ih =>
    intro hu
    have hka : keyMatch a.RegistryID a.UpkeepID a = true := by simp [keyMatch]
    refine List.nodup_cons.2 ⟨?_, ih ?_⟩
    · intro hmem
      have h1 := hu a.RegistryID a.UpkeepID
      rw [List.filter_cons_of_pos hka] at h1
      have h2 : a ∈ t.filter (keyMatch a.RegistryID a.UpkeepID) :=
        List.mem_filter.2 ⟨hmem, hka⟩
      have h3 := List.length_pos_of_mem h2
      rw [List.length_cons] at h1
      omega
    · intro rid uid
      have h1 := hu rid uid
      rw [List.filter_cons] at h1
      split at h1
      · rw [List.length_cons] at h1; omega
      · exact h1

lemma keysUnique_of_nodup_keys_aux :
    ∀ (l : List UpkeepRegistration),
      (l.map (fun u => (u.RegistryID, u.UpkeepID))).Nodup →
      ∀ rid uid, (l.filter (keyMatch rid uid)).length ≤ 1 := by
  intro l
  induction l with
  | nil => intro _ rid uid; exact Nat.le_of_lt Nat.one_pos
  | cons a t ih =>
    intro hnd rid uid
    have hnd' : (a.RegistryID, a.UpkeepID) ∉
        t.map (fun u => (u.RegistryID, u.UpkeepID)) ∧
        (t.map (fun u => (u.RegistryID, u.UpkeepID))).Nodup := List.nodup_cons.1 hnd
    rw [List.filter_cons]
    split
    · rename_i hka
      have hkey : a.RegistryID = rid ∧ a.UpkeepID = uid := by
        simpa [keyMatch] using hka
      have hnil : t.filter (keyMatch rid uid) = [] := by
        rw [List.filter_eq_nil_iff]
        intro x hx hpx
        have hxkey : x.RegistryID = rid ∧ x.UpkeepID = uid := by
          simpa [keyMatch] using hpx
        apply hnd'.1
        refine List.mem_map.2 ⟨x, hx, ?_⟩
        rw [hxkey.1, hxkey.2, hkey.1, hkey.2]
      rw [hnil]
      exact Nat.le_refl 1
    · exact ih hnd'.2 rid uid

lemma keysUnique_of_nodup_keys (s : KeeperStore)
    (h : (s.upkeeps.map (fun u => (u.RegistryID, u.UpkeepID))).Nodup) :
    upkeepKeysUnique s :=
  keysUnique_of_nodup_keys_aux s.upkeeps h

lemma xor_ne_self_of_ne_zero {k m : Nat} (hm : m ≠ 0) : k ^^^ m ≠ k := by
  intro h
  apply hm
  calc m = (k ^^^ k) ^^^ m := by rw [Nat.xor_self, Nat.zero_xor]
    _ = k ^^^ (k ^^^ m) := Nat.xor_assoc k k m
    _ = k ^^^ k := by rw [h]
    _ = 0 := Nat.xor_self k

/-- C9: for every registry record with `NumKeepers ≤ 0` or
`BlockCountPerTurn ≤ 0`, the registry store's create/update operation
fails with `ValidationError` and produces no new durable state. -/
theorem UpsertRegistry_validation (s : KeeperStore) (r : Registry)
    (h : r.NumKeepers ≤ 0 ∨ r.BlockCountPerTurn ≤ 0) :
    UpsertRegistry s r = Except.error KeeperError.validationError := by
  unfold UpsertRegistry
  rw [if_pos h]

/-- Witness for C9: a concrete registry with zero keepers is rejected. -/
theorem UpsertRegistry_validation_witness :
    UpsertRegistry w1Store { demoRegistry 0 2 with NumKeepers := 0 } =
      Except.error KeeperError.validationError :=
  UpsertRegistry_validation w1Store _ (Or.inl (by decide))

/-- C6: eligibility computed for one registry's contract address only
ever returns upkeeps of that registry; upkeeps of any other registry
(one with a different row id) never appear, even if upkeep ids collide. -/
theorem NewEligibleUpkeeps_scoped_to_registry (s : KeeperStore) (addrB : Nat) (rB : Registry)
    (height grace : Int) (seed : Nat) (l : List UpkeepRegistration)
    (hr : findRegistryByContract s addrB = some rB)
    (he : NewEligibleUpkeepsForRegistry s addrB height grace seed = Except.ok l) :
    (∀ u ∈ l, u.RegistryID = rB.ID) ∧
    (∀ rA : Registry, rA.ID ≠ rB.ID → ∀ u ∈ l, u.RegistryID ≠ rA.ID) := by
  have hl : l = shuffleList seed
      ((s.upkeeps.filter (registryFilter rB.ID)).filter (isEligible rB height grace seed)) := by
    unfold NewEligibleUpkeepsForRegistry at he
    rw [hr] at he
    exact (Except.ok.inj he).symm
  have hscope : ∀ u ∈ l, u.RegistryID = rB.ID := by
    intro u hu
    rw [hl, mem_shuffleList] at hu
    have h1 := (List.mem_filter.1 hu).1
    have h2 := (List.mem_filter.1 h1).2
    simpa [registryFilter] using h2
  refine ⟨hscope, ?_⟩
  intro rA hne u hu
  rw [hscope u hu]
  exact fun hc => hne hc.symm

/-- Concrete store with two single-keeper registries holding upkeeps
with the same `UpkeepID`, as in the registry-scoping test. -/
def w6Store : KeeperStore :=
  { registries := [demoRegistry 0 1, { demoRegistry 0 1 with ID := 2, ContractAddress := 12, JobID := 6 }],
    upkeeps := [mkDemoUpkeep 1 0 0 none, mkDemoUpkeep 2 0 0 none] }

/-- Witness for C6: over a store with two registries holding upkeeps
with identical upkeep ids, the query scoped to the second registry's
contract address only returns rows of the second registry. -/
theorem NewEligibleUpkeeps_scoped_to_registry_witness :
    ∃ l, NewEligibleUpkeepsForRegistry w6Store 12 20 100 9876 = Except.ok l ∧
      (∀ u ∈ l, u.RegistryID = 2) ∧ ∀ u ∈ l, u.RegistryID ≠ 1 := by
  refine ⟨_, rfl, ?_, ?_⟩
  · exact (NewEligibleUpkeeps_scoped_to_registry w6Store 12
      { demoRegistry 0 1 with ID := 2, ContractAddress := 12, JobID := 6 }
      20 100 9876 _ rfl rfl).1
  · exact (NewEligibleUpkeeps_scoped_to_registry w6Store 12
      { demoRegistry 0 1 with ID := 2, ContractAddress := 12, JobID := 6 }
      20 100 9876 _ rfl rfl).2 (demoRegistry 0 1) (by decide)

/-- C8: the eligibility computation, including the output shuffle, is a
deterministic function of its inputs: it depends only on the contract
address, height, grace period, seed, the registry row resolved for the
address and that registry's stored upkeeps — so two calls with the same
arguments over an unchanged store return identical lists. -/
theorem NewEligibleUpkeeps_deterministic (s₁ s₂ : KeeperStore) (addr : Nat)
    (height grace : Int) (seed : Nat)
    (hreg : findRegistryByContract s₁ addr = findRegistryByContract s₂ addr)
    (hups : ∀ r, findRegistryByContract s₁ addr = some r →
      s₁.upkeeps.filter (registryFilter r.ID) = s₂.upkeeps.filter (registryFilter r.ID)) :
    NewEligibleUpkeepsForRegistry s₁ addr height grace seed =
      NewEligibleUpkeepsForRegistry s₂ addr height grace seed := by
  cases h : findRegistryByContract s₁ addr with
  | none =>
    have h2 : findRegistryByContract s₂ addr = none := by rw [← hreg]; exact h
    unfold NewEligibleUpkeepsForRegistry
    rw [h, h2]
  | some r =>
    have h2 : findRegistryByContract s₂ addr = some r := by rw [← hreg]; exact h
    rw [NewEligible_eq s₁ addr r height grace seed h,
      NewEligible_eq s₂ addr r height grace seed h2, hups r h]

/-- Witness for C8: two calls with identical arguments over the same
concrete 100-upkeep store return the same list. -/
theorem NewEligibleUpkeeps_deterministic_witness :
    NewEligibleUpkeepsForRegistry (demoStore 0 2 10 (some 0)) 11 21 100 9876 =
      NewEligibleUpkeepsForRegistry (demoStore 0 2 10 (some 0)) 11 21 100 9876 :=
  NewEligibleUpkeeps_deterministic (demoStore 0 2 10 (some 0)) (demoStore 0 2 10 (some 0))
    11 21 100 9876 rfl (fun _ _ => rfl)

/-- Mixed store for the grace-period exclusion: 99 never-run upkeeps
plus one upkeep (id 99) last performed by keeper 0 at height 10, under
a 2-keeper registry whose node is keeper 0. -/
def w2Store : KeeperStore :=
  { registries := [demoRegistry 0 2],
    upkeeps := (List.range 99).map (fun i => mkDemoUpkeep 1 i 0 none) ++
      [mkDemoUpkeep 1 99 10 (some 0)] }

/-- C2: any upkeep last performed by this node's own keeper index and
still inside the grace window is excluded from the eligibility result,
whatever its turn assignment and whatever state the registry's other
upkeeps are in; in the 100-upkeep grace-period test scenario, querying
inside the window returns the empty list, and querying well past the
window returns a non-empty list. -/
theorem NewEligibleUpkeeps_grace_period :
    (∀ (s : KeeperStore) (addr : Nat) (r : Registry) (height grace : Int) (seed : Nat)
      (l : List UpkeepRegistration) (u : UpkeepRegistration),
      findRegistryByContract s addr = some r →
      0 < r.NumKeepers →
      NewEligibleUpkeepsForRegistry s addr height grace seed = Except.ok l →
      u.LastKeeperIndex = some r.KeeperIndex →
      height - u.LastRunBlockHeight < grace →
      u ∉ l) ∧
    (NewEligibleUpkeepsForRegistry (demoStore 0 2 10 (some 0)) 11 21 100 9876 =
      Except.ok []) ∧
    (∃ l, NewEligibleUpkeepsForRegistry (demoStore 0 2 10 (some 0)) 11 121 100 9876 =
      Except.ok l ∧ l ≠ []) := by
  refine ⟨?_, rfl, ⟨_, rfl, by decide⟩⟩
  intro s addr r height grace seed l u hr hpos he hlk hgr hul
  rw [NewEligible_eq s addr r height grace seed hr] at he
  have hl := (Except.ok.inj he).symm
  rw [hl, mem_shuffleList] at hul
  have hel := (List.mem_filter.1 hul).2
  unfold isEligible at hel
  rw [decide_eq_true_eq] at hel
  rcases hel with ⟨heven, hbud⟩ | ⟨_, hns⟩
  · rw [hlk] at hbud
    have hbuddy : r.KeeperIndex ^^^ (r.NumKeepers / 2) = r.KeeperIndex := by
      unfold buddyIndex at hbud
      exact (Option.some.inj hbud).symm
    have hhalf : r.NumKeepers / 2 ≠ 0 := by omega
    exact xor_ne_self_of_ne_zero hhalf hbuddy
  · exact hns ⟨hlk, hgr⟩

/-- Witness for C2: over the mixed store (99 never-run upkeeps and one
last performed by this node at height 10), eligibility inside the grace
window is non-empty yet excludes precisely that in-grace upkeep. -/
theorem NewEligibleUpkeeps_grace_period_witness :
    ∃ l, NewEligibleUpkeepsForRegistry w2Store 11 21 100 9876 = Except.ok l ∧
      l ≠ [] ∧ mkDemoUpkeep 1 99 10 (some 0) ∉ l := by
  refine ⟨_, rfl, by decide, ?_⟩
  exact NewEligibleUpkeeps_grace_period.1 w2Store 11 (demoRegistry 0 2) 21 100 9876 _
    (mkDemoUpkeep 1 99 10 (some 0)) rfl (by decide) rfl rfl (by decide)

/-- C7: an upkeep whose `LastKeeperIndex` is null (never performed) is
subject to neither the self-skip grace exclusion nor buddy coverage:
it is in the eligibility result exactly when its turn assignment equals
the node's keeper index; and in the first-turn test scenario (keeper
index 0 of a 2-keeper registry, 100 never-run upkeeps) the result is
non-empty. -/
theorem NewEligibleUpkeeps_first_turn :
    (∀ (s : KeeperStore) (addr : Nat) (r : Registry) (height grace : Int) (seed : Nat)
      (l : List UpkeepRegistration) (u : UpkeepRegistration),
      findRegistryByContract s addr = some r →
      NewEligibleUpkeepsForRegistry s addr height grace seed = Except.ok l →
      u ∈ s.upkeeps → u.RegistryID = r.ID → u.LastKeeperIndex = none →
      (u ∈ l ↔ assignedIndex r height seed u.UpkeepID = r.KeeperIndex)) ∧
    (∃ l, NewEligibleUpkeepsForRegistry (demoStore 0 2 0 none) 11 21 100 9876 =
      Except.ok l ∧ l ≠ []) := by
  constructor
  · intro s addr r height grace seed l u hr he humem hurid hnull
    rw [NewEligible_eq s addr r height grace seed hr] at he
    have hl := (Except.ok.inj he).symm
    rw [hl, mem_shuffleList, List.mem_filter, List.mem_filter]
    unfold isEligible
    simp [humem, hurid, registryFilter, hnull]
  · exact ⟨_, rfl, by decide⟩

/-- Witness for C7: a concrete never-run upkeep of a single-keeper
registry is in the result exactly when its turn assignment is index 0. -/
theorem NewEligibleUpkeeps_first_turn_witness :
    mkDemoUpkeep 1 0 0 none ∈ [mkDemoUpkeep 1 0 0 none] ↔
      assignedIndex (demoRegistry 0 1) 21 9876 0 = 0 :=
  NewEligibleUpkeeps_first_turn.1 w1Store 11 (demoRegistry 0 1) 21 100 9876
    [mkDemoUpkeep 1 0 0 none] (mkDemoUpkeep 1 0 0 none) rfl rfl (by decide) rfl rfl

/-- C3: with two keepers, for the node at keeper index 1, marking every
upkeep of the store as last performed by keeper 0 (its buddy) can only
enlarge the eligibility result: at the same height, grace period and
seed the list computed after the marking is at least as long as the one
computed before it. -/
theorem NewEligibleUpkeeps_buddy_cover_monotone (s : KeeperStore) (addr : Nat) (r : Registry)
    (height grace : Int) (seed : Nat) (l₁ l₂ : List UpkeepRegistration)
    (hr : findRegistryByContract s addr = some r)
    (hk : r.KeeperIndex = 1) (hn : r.NumKeepers = 2)
    (h1 : NewEligibleUpkeepsForRegistry s addr height grace seed = Except.ok l₁)
    (h2 : NewEligibleUpkeepsForRegistry (markBuddyRan s) addr height grace seed =
      Except.ok l₂) :
    l₁.length ≤ l₂.length := by
  have hr' : findRegistryByContract (markBuddyRan s) addr = some r := hr
  rw [NewEligible_eq s addr r height grace seed hr] at h1
  rw [NewEligible_eq (markBuddyRan s) addr r height grace seed hr'] at h2
  have hl₁ := (Except.ok.inj h1).symm
  have hl₂ := (Except.ok.inj h2).symm
  have hmark : (markBuddyRan s).upkeeps.filter (registryFilter r.ID) =
      (s.upkeeps.filter (registryFilter r.ID)).map
        (fun u => { u with LastKeeperIndex := some 0 }) := by
    show (s.upkeeps.map (fun u => { u with LastKeeperIndex := some 0 })).filter
        (registryFilter r.ID) = _
    rw [List.filter_map]
    rfl
  have hall : ((markBuddyRan s).upkeeps.filter (registryFilter r.ID)).filter
      (isEligible r height grace seed) =
      (markBuddyRan s).upkeeps.filter (registryFilter r.ID) := by
    rw [List.filter_eq_self]
    intro u hu
    rw [hmark] at hu
    obtain ⟨v, _, hv⟩ := List.mem_map.1 hu
    unfold isEligible
    simp only [decide_eq_true_eq]
    left
    constructor
    · rw [hn]
    · rw [← hv]
      show some 0 = some (buddyIndex r)
      unfold buddyIndex
      rw [hk, hn]
      decide
  rw [hl₁, hl₂, length_shuffleList, length_shuffleList, hall, hmark,
    List.length_map]
  exact List.length_filter_le _ _

/-- Witness for C3: in the buddy-coverage test scenario (100 upkeeps,
node at keeper index 1 of 2), the list computed after marking every
upkeep as last performed by keeper 0 is at least as long as before. -/
theorem NewEligibleUpkeeps_buddy_cover_monotone_witness :
    ∃ l₁ l₂, NewEligibleUpkeepsForRegistry (demoStore 1 2 0 none) 11 21 100 9876 =
        Except.ok l₁ ∧
      NewEligibleUpkeepsForRegistry (markBuddyRan (demoStore 1 2 0 none)) 11 21 100 9876 =
        Except.ok l₂ ∧
      l₁.length ≤ l₂.length := by
  refine ⟨_, _, rfl, rfl, ?_⟩
  exact NewEligibleUpkeeps_buddy_cover_monotone (demoStore 1 2 0 none) 11 (demoRegistry 1 2)
    21 100 9876 _ _ rfl rfl rfl rfl rfl

/-- C10: the eligibility result never lists an upkeep twice (given the
database uniqueness of `(RegistryID, UpkeepID)`), its length is at most
the number of stored upkeeps of the registry, and in single-keeper mode
with no grace exclusion in force it is exactly that number. -/
theorem NewEligibleUpkeeps_nodup_length (s : KeeperStore) (addr : Nat) (r : Registry)
    (height grace : Int) (seed : Nat) (l : List UpkeepRegistration)
    (hr : findRegistryByContract s addr = some r)
    (huniq : upkeepKeysUnique s)
    (he : NewEligibleUpkeepsForRegistry s addr height grace seed = Except.ok l) :
    l.Nodup ∧ l.length ≤ (s.upkeeps.filter (registryFilter r.ID)).length ∧
    (r.NumKeepers = 1 → r.KeeperIndex = 0 →
      (∀ u ∈ s.upkeeps, u.RegistryID = r.ID →
        ¬(u.LastKeeperIndex = some 0 ∧ height - u.LastRunBlockHeight < grace)) →
      l.length = (s.upkeeps.filter (registryFilter r.ID)).length) := by
  rw [NewEligible_eq s addr r height grace seed hr] at he
  have hl := (Except.ok.inj he).symm
  have hnodup : s.upkeeps.Nodup := keysUnique_nodup s.upkeeps huniq
  refine ⟨?_, ?_, ?_⟩
  · rw [hl]
    exact ((shuffleList_perm seed _).nodup_iff).2
      (((hnodup.filter (registryFilter r.ID))).filter _)
  · rw [hl, length_shuffleList]
    exact List.length_filter_le _ _
  · intro hone hzero hnograce
    rw [hl, length_shuffleList]
    have hfull : (s.upkeeps.filter (registryFilter r.ID)).filter
        (isEligible r height grace seed) = s.upkeeps.filter (registryFilter r.ID) := by
      rw [List.filter_eq_self]
      intro u hu
      have humem := (List.mem_filter.1 hu).1
      have hurid : u.RegistryID = r.ID := by
        simpa [registryFilter] using (List.mem_filter.1 hu).2
      unfold isEligible
      simp only [decide_eq_true_eq]
      right
      constructor
      · unfold assignedIndex
        rw [hone, hzero, Nat.mod_one]
      · rw [hzero]
        exact hnograce u humem hurid
    rw [hfull]

/-- Witness for C10: over the concrete single-keeper 100-upkeep store of
the shuffle test the result has no duplicates, is at most 100 long, and
with no grace exclusion in force is exactly 100 long. -/
theorem NewEligibleUpkeeps_nodup_length_witness :
    ∃ l, NewEligibleUpkeepsForRegistry (demoStore 0 1 0 none) 11 63 10 9876 =
        Except.ok l ∧ l.Nodup ∧
      l.length ≤ ((demoStore 0 1 0 none).upkeeps.filter (registryFilter 1)).length ∧
      l.length = ((demoStore 0 1 0 none).upkeeps.filter (registryFilter 1)).length := by
  refine ⟨_, rfl, ?_, ?_, ?_⟩
  · exact (NewEligibleUpkeeps_nodup_length (demoStore 0 1 0 none) 11 (demoRegistry 0 1)
      63 10 9876 _ rfl (keysUnique_of_nodup_keys _ (by decide)) rfl).1
  · exact (NewEligibleUpkeeps_nodup_length (demoStore 0 1 0 none) 11 (demoRegistry 0 1)
      63 10 9876 _ rfl (keysUnique_of_nodup_keys _ (by decide)) rfl).2.1
  · exact (NewEligibleUpkeeps_nodup_length (demoStore 0 1 0 none) 11 (demoRegistry 0 1)
      63 10 9876 _ rfl (keysUnique_of_nodup_keys _ (by decide)) rfl).2.2 rfl rfl (by decide)

/-- C4: upserting an upkeep whose `(RegistryID, UpkeepID)` pair already
exists rewrites the row with the new field values while keeping the
stored `LastRunBlockHeight` and `LastKeeperIndex`, and adds no second
row; upserting an absent pair appends a new row. -/
theorem UpsertUpkeep_preserves_bookkeeping (s : KeeperStore) (u : UpkeepRegistration) :
    (∀ old, getUpkeep s u.RegistryID u.UpkeepID = some old →
      (UpsertUpkeep s u).upkeeps.length = s.upkeeps.length ∧
      getUpkeep (UpsertUpkeep s u) u.RegistryID u.UpkeepID =
        some { u with LastRunBlockHeight := old.LastRunBlockHeight,
                      LastKeeperIndex := old.LastKeeperIndex }) ∧
    (getUpkeep s u.RegistryID u.UpkeepID = none →
      (UpsertUpkeep s u).upkeeps = s.upkeeps ++ [u]) := by
  constructor
  · intro old hold
    have hpold : keyMatch u.RegistryID u.UpkeepID old = true := List.find?_some hold
    have hany : s.upkeeps.any (keyMatch u.RegistryID u.UpkeepID) = true :=
      List.any_eq_true.2 ⟨old, List.mem_of_find?_eq_some hold, hpold⟩
    have hred : UpsertUpkeep s u = { s with upkeeps := s.upkeeps.map (fun x =>
        if keyMatch u.RegistryID u.UpkeepID x then
          { u with LastRunBlockHeight := x.LastRunBlockHeight,
                   LastKeeperIndex := x.LastKeeperIndex }
        else x) } := by
      unfold UpsertUpkeep
      rw [if_pos hany]
    have hpf : (keyMatch u.RegistryID u.UpkeepID) ∘ (fun x =>
        if keyMatch u.RegistryID u.UpkeepID x then
          { u with LastRunBlockHeight := x.LastRunBlockHeight,
                   LastKeeperIndex := x.LastKeeperIndex }
        else x) = keyMatch u.RegistryID u.UpkeepID := by
      funext x
      by_cases hx : keyMatch u.RegistryID u.UpkeepID x = true
      · show keyMatch u.RegistryID u.UpkeepID (if keyMatch u.RegistryID u.UpkeepID x then _ else x) = _
        rw [if_pos hx, hx]
        simp [keyMatch]
      · show keyMatch u.RegistryID u.UpkeepID (if keyMatch u.RegistryID u.UpkeepID x then _ else x) = _
        rw [if_neg hx]
    rw [hred]
    constructor
    · exact List.length_map _ _
    · show (s.upkeeps.map _).find? (keyMatch u.RegistryID u.UpkeepID) = _
      rw [List.find?_map, hpf]
      show ((getUpkeep s u.RegistryID u.UpkeepID).map _) = _
      rw [hold]
      show some (if keyMatch u.RegistryID u.UpkeepID old then _ else old) = _
      rw [if_pos hpold]
  · intro hnone
    have hany : s.upkeeps.any (keyMatch u.RegistryID u.UpkeepID) = false := by
      rw [List.any_eq_false]
      intro x hx hpx
      exact (List.find?_eq_none.1 hnone x hx) hpx
    unfold UpsertUpkeep
    rw [hany]
    rfl

/-- Stored upkeep row used in the upsert-bookkeeping witness. -/
def w4Old : UpkeepRegistration := { mkDemoUpkeep 1 0 1 none with PositioningConstant := 1 }

/-- Re-observed registration with new payload fields, used in the
upsert-bookkeeping witness. -/
def w4New : UpkeepRegistration :=
  { mkDemoUpkeep 1 0 2 none with ExecuteGas := 20000, CheckData := [136, 136] }

/-- Store holding the single stored row of the upsert-bookkeeping
witness. -/
def w4Store : KeeperStore := { registries := [demoRegistry 0 1], upkeeps := [w4Old] }

/-- Witness for C4: re-upserting the stored upkeep with new gas and
check data keeps the row count at one and preserves the stored run
bookkeeping (`LastRunBlockHeight = 1`, `LastKeeperIndex = none`) while
taking the new payload fields. -/
theorem UpsertUpkeep_preserves_bookkeeping_witness :
    (UpsertUpkeep w4Store w4New).upkeeps.length = w4Store.upkeeps.length ∧
    getUpkeep (UpsertUpkeep w4Store w4New) 1 0 =
      some { w4New with LastRunBlockHeight := 1, LastKeeperIndex := none } :=
  (UpsertUpkeep_preserves_bookkeeping w4Store w4New).1 w4Old rfl

/-- C5: deleting a set of upkeep ids for a job removes exactly the
upkeeps of that job's registry whose `UpkeepID` is in the set, the
returned count is the number of rows actually removed, and ids with no
matching rows yield zero deletions, no error and an unchanged store. -/
theorem BatchDeleteUpkeepsForJob_exact (s : KeeperStore) (jobID : Nat) (ids : List Int)
    (r : Registry) (hr : findRegistryByJob s jobID = some r) :
    ∃ n s', BatchDeleteUpkeepsForJob s jobID ids = Except.ok (n, s') ∧
      s'.upkeeps = s.upkeeps.filter
        (fun u => ! decide (u.RegistryID = r.ID ∧ u.UpkeepID ∈ ids)) ∧
      n = (s.upkeeps.filter (fun u => decide (u.RegistryID = r.ID ∧ u.UpkeepID ∈ ids))).length ∧
      ((∀ u ∈ s.upkeeps, u.RegistryID = r.ID → u.UpkeepID ∉ ids) → n = 0 ∧ s' = s) := by
  have hsum := length_filter_not_add
    (fun u => decide (u.RegistryID = r.ID ∧ u.UpkeepID ∈ ids)) s.upkeeps
  refine ⟨s.upkeeps.length - (s.upkeeps.filter (fun u => ! decide (u.RegistryID = r.ID ∧ u.UpkeepID ∈ ids))).length, { s with upkeeps := s.upkeeps.filter (fun u => ! decide (u.RegistryID = r.ID ∧ u.UpkeepID ∈ ids)) }, ?_, rfl, ?_, ?_⟩
  · unfold BatchDeleteUpkeepsForJob
    rw [hr]
  · omega
  · intro hno
    have hself : s.upkeeps.filter
        (fun u => ! decide (u.RegistryID = r.ID ∧ u.UpkeepID ∈ ids)) = s.upkeeps := by
      rw [List.filter_eq_self]
      intro u hu
      simp only [Bool.not_eq_true']
      rw [decide_eq_false_iff_not]
      intro hc
      exact hno u hu hc.1 hc.2
    constructor
    · rw [hself]
      omega
    · rw [hself]

/-- Store with upkeeps `{0, 1, 2}` under one job, as in the batch-delete
test. -/
def w5Store : KeeperStore :=
  { registries := [demoRegistry 0 1],
    upkeeps := [mkDemoUpkeep 1 0 0 none, mkDemoUpkeep 1 1 0 none, mkDemoUpkeep 1 2 0 none] }

/-- Witness for C5: deleting `{0, 2}` from the job holding `{0, 1, 2}`
keeps exactly the non-matching rows and reports the number removed. -/
theorem BatchDeleteUpkeepsForJob_exact_witness :
    ∃ n s', BatchDeleteUpkeepsForJob w5Store 5 [0, 2] = Except.ok (n, s') ∧
      s'.upkeeps = w5Store.upkeeps.filter (fun u => ! decide (u.RegistryID = (demoRegistry 0 1).ID ∧ u.UpkeepID ∈ ([0, 2] : List Int))) ∧
      n = (w5Store.upkeeps.filter (fun u => decide (u.RegistryID = (demoRegistry 0 1).ID ∧ u.UpkeepID ∈ ([0, 2] : List Int)))).length ∧
      ((∀ u ∈ w5Store.upkeeps, u.RegistryID = (demoRegistry 0 1).ID → u.UpkeepID ∉ ([0, 2] : List Int)) → n = 0 ∧ s' = w5Store) :=
  BatchDeleteUpkeepsForJob_exact w5Store 5 [0, 2] (demoRegistry 0 1) rfl

lemma keyMatch_applyRun (rid' : Nat) (uid' : Int) (k : Nat) (h : Int) (rid : Nat) (uid : Int)
    (u : UpkeepRegistration) :
    keyMatch rid' uid' (applyRun k h rid uid u) = keyMatch rid' uid' u := by
  unfold keyMatch applyRun
  split <;> rfl

lemma getUpkeep_map_applyRun (s : KeeperStore) (k : Nat) (h : Int) (rid : Nat) (uid : Int)
    (rid' : Nat) (uid' : Int) :
    getUpkeep { s with upkeeps := s.upkeeps.map (applyRun k h rid uid) } rid' uid' =
      (getUpkeep s rid' uid').map (applyRun k h rid uid) := by
  unfold getUpkeep
  show (s.upkeeps.map (applyRun k h rid uid)).find? (keyMatch rid' uid') = _
  rw [List.find?_map]
  have hpf : (keyMatch rid' uid') ∘ (applyRun k h rid uid) = keyMatch rid' uid' :=
    funext (fun u => keyMatch_applyRun rid' uid' k h rid uid u)
  rw [hpf]

lemma applyRun_lastRun_match (k : Nat) (h : Int) (rid : Nat) (uid : Int)
    (u : UpkeepRegistration) (hm : u.RegistryID = rid ∧ u.UpkeepID = uid) :
    (applyRun k h rid uid u).LastRunBlockHeight = max u.LastRunBlockHeight h := by
  unfold applyRun
  by_cases hlt : u.LastRunBlockHeight < h
  · rw [if_pos ⟨hm.1, hm.2, hlt⟩]
    exact (max_eq_right (le_of_lt hlt)).symm
  · rw [if_neg (fun hc => hlt hc.2.2)]
    exact (max_eq_left (le_of_not_lt hlt)).symm

lemma SetLastRunInfo_eq (s : KeeperStore) (jobID : Nat) (uid : Int) (h : Int) (addr : Nat)
    (r : Registry) (k : Nat) (hr : findRegistryByJob s jobID = some r)
    (hk : resolveKeeperIndex r addr = some k) :
    SetLastRunInfoForUpkeepOnJob s jobID uid h addr =
      Except.ok { s with upkeeps := s.upkeeps.map (applyRun k h r.ID uid) } := by
  unfold SetLastRunInfoForUpkeepOnJob
  simp only [hr, hk]

lemma runSeq_lastRun (jobID : Nat) (uid : Int) (addr : Nat) (r : Registry) (k : Nat)
    (hkres : resolveKeeperIndex r addr = some k) :
    ∀ (hs : List Int) (s : KeeperStore) (u0 : UpkeepRegistration),
      findRegistryByJob s jobID = some r →
      getUpkeep s r.ID uid = some u0 →
      ∃ s', runSetLastRunSeq jobID uid addr s hs = Except.ok s' ∧
        ∃ u', getUpkeep s' r.ID uid = some u' ∧
          u'.LastRunBlockHeight = hs.foldl max u0.LastRunBlockHeight := by
  intro hs
  induction hs with
  | nil =>
    intro s u0 hr hu
    exact ⟨s, rfl, u0, hu, rfl⟩
  | cons h t ih =>
    intro s u0 hr hu
    have hstep : SetLastRunInfoForUpkeepOnJob s jobID uid h addr =
        Except.ok { s with upkeeps := s.upkeeps.map (applyRun k h r.ID uid) } :=
      SetLastRunInfo_eq s jobID uid h addr r k hr hkres
    have hr₁ : findRegistryByJob { s with upkeeps := s.upkeeps.map (applyRun k h r.ID uid) } jobID = some r := hr
    have hm : u0.RegistryID = r.ID ∧ u0.UpkeepID = uid := by
      have hp := List.find?_some hu
      simpa [keyMatch] using hp
    have hu₁ : getUpkeep { s with upkeeps := s.upkeeps.map (applyRun k h r.ID uid) } r.ID uid =
        some (applyRun k h r.ID uid u0) := by
      rw [getUpkeep_map_applyRun, hu]
      rfl
    obtain ⟨s', hrun, u', hu', hlast⟩ :=
      ih { s with upkeeps := s.upkeeps.map (applyRun k h r.ID uid) } (applyRun k h r.ID uid u0) hr₁ hu₁
    refine ⟨s', ?_, u', hu', ?_⟩
    · show (match SetLastRunInfoForUpkeepOnJob s jobID uid h addr with
        | Except.error e => Except.error e
        | Except.ok s₁ => runSetLastRunSeq jobID uid addr s₁ t) = Except.ok s'
      rw [hstep]
      exact hrun
    · rw [hlast, applyRun_lastRun_match k h r.ID uid u0 hm]
      rfl

/-- C1: `setLastRunInfo` is a conditional, monotone update: a call whose
height does not exceed the stored `LastRunBlockHeight` leaves the store
entirely unchanged yet still succeeds; a call with a strictly greater
height rewrites the row's `LastRunBlockHeight` to that height and its
`LastKeeperIndex` to the index resolved from the keeper address; and
after any sequence of calls the stored height is the maximum of the
initial value and all reported heights. -/
theorem SetLastRunInfo_monotone (s : KeeperStore) (jobID : Nat) (uid : Int) (addr : Nat)
    (r : Registry) (k : Nat) (u0 : UpkeepRegistration)
    (hr : findRegistryByJob s jobID = some r)
    (hk : resolveKeeperIndex r addr = some k)
    (hu : getUpkeep s r.ID uid = some u0)
    (huniq : upkeepKeysUnique s) :
    (∀ h : Int, h ≤ u0.LastRunBlockHeight →
      SetLastRunInfoForUpkeepOnJob s jobID uid h addr = Except.ok s) ∧
    (∀ h : Int, u0.LastRunBlockHeight < h →
      ∃ s₁, SetLastRunInfoForUpkeepOnJob s jobID uid h addr = Except.ok s₁ ∧
        getUpkeep s₁ r.ID uid =
          some { u0 with LastRunBlockHeight := h, LastKeeperIndex := some k }) ∧
    (∀ hs : List Int, ∃ s', runSetLastRunSeq jobID uid addr s hs = Except.ok s' ∧
      ∃ u', getUpkeep s' r.ID uid = some u' ∧
        u'.LastRunBlockHeight = hs.foldl max u0.LastRunBlockHeight) := by
  have hm : u0.RegistryID = r.ID ∧ u0.UpkeepID = uid := by
    have hp := List.find?_some hu
    simpa [keyMatch] using hp
  refine ⟨?_, ?_, ?_⟩
  · intro h hle
    rw [SetLastRunInfo_eq s jobID uid h addr r k hr hk]
    have hid : ∀ u ∈ s.upkeeps, applyRun k h r.ID uid u = u := by
      intro u humem
      unfold applyRun
      rw [if_neg]
      intro hc
      have humf : u ∈ s.upkeeps.filter (keyMatch r.ID uid) :=
        List.mem_filter.2 ⟨humem, by simp [keyMatch, hc.1, hc.2.1]⟩
      have hu0f : u0 ∈ s.upkeeps.filter (keyMatch r.ID uid) :=
        List.mem_filter.2 ⟨List.mem_of_find?_eq_some hu, List.find?_some hu⟩
      have hequ : u = u0 := length_le_one_mem_eq (huniq r.ID uid) humf hu0f
      rw [hequ] at hc
      omega
    have hmap : s.upkeeps.map (applyRun k h r.ID uid) = s.upkeeps := by
      have := List.map_congr_left (g := id) (fun a ha => hid a ha)
      rw [this, List.map_id]
    rw [hmap]
  · intro h hlt
    refine ⟨{ s with upkeeps := s.upkeeps.map (applyRun k h r.ID uid) }, ?_, ?_⟩
    · exact SetLastRunInfo_eq s jobID uid h addr r k hr hk
    · rw [getUpkeep_map_applyRun, hu]
      show some (applyRun k h r.ID uid u0) = _
      unfold applyRun
      rw [if_pos ⟨hm.1, hm.2, hlt⟩]
  · intro hs
    exact runSeq_lastRun jobID uid addr r k hk hs s u0 hr hu

/-- Witness for C1: starting from a stored height of 0, reporting the
heights 100, 0, 101 in order succeeds and leaves the stored
`LastRunBlockHeight` at the running maximum of the initial value and
the reported heights (here 101). -/
theorem SetLastRunInfo_monotone_witness :
    ∃ s', runSetLastRunSeq 5 0 21 w1Store [100, 0, 101] = Except.ok s' ∧
      ∃ u', getUpkeep s' 1 0 = some u' ∧
        u'.LastRunBlockHeight = ([100, 0, 101] : List Int).foldl max 0 :=
  (SetLastRunInfo_monotone w1Store 5 0 21 (demoRegistry 0 1) 0 (mkDemoUpkeep 1 0 0 none)
      rfl rfl rfl (keysUnique_of_nodup_keys w1Store (by decide))).2.2 [100, 0, 101]
